import Mathlib

/-!
Shallow embedding of the jRna component-binding engine (src/js/jrna.js).

The JavaScript source is translated into executable Lean definitions:
 - JS primitive values that flow through the engine (strings, integer
   numbers, function references, arrays, `undefined`) become the
   inductive type `JVal`; JS loose equality (`!=`) and string coercion
   (`''+x`) are modelled on that domain (`looseEq`, `jsToString`).
 - The DOM subtree a blueprint attaches to becomes the rose tree `Dom`;
   jQuery's `find('.cls')` plus the `container.hasClass/add` fix-up of
   `attach` becomes `findAdd`, and document order is preorder order.
 - JS objects used as string-keyed tables (`_known`, `allowArgs`,
   `assignArgs`, `noArgs`, `isMethod`, `_init`, the instance itself)
   become association lists with `alGet`/`alSet`.
 - Fallible operations (everything routed through `this.throw`) return
   `Except String`; `throwMsg` reproduces the " - jRna@origin" suffix
   that `this.throw` appends.
 - Side effects of user-supplied closures (setup actions, instance
   methods invoked on arguments, onAttach callbacks) are opaque to the
   engine; they are recorded as trace events (`Ev`) in the order the
   engine runs them, which is exactly what the externally-observable
   behaviour of those closures depends on.
-/

namespace JRna

/-- JS values handled by the engine.  `num` covers the integer numerics
the engine's claims exercise; `fn` is a function reference identified by
an id (JS functions compare by reference); `undef` is `undefined`. -/
inductive JVal where
  | str (s : String)
  | num (n : Int)
  | fn (id : Nat)
  | arr (elems : List JVal)
  | undef
deriving Repr

/-- JS `Number(string)` restricted to the integral domain: `''` is 0, an
optional sign followed by decimal digits parses, anything else is NaN
(`none`).  (Whitespace trimming and fractional/hex forms are outside the
modelled domain.) -/
def decNatAcc (cs : List Char) : Option Nat :=
  cs.foldl
    (fun acc c =>
      match acc with
      | some a => if c.isDigit then some (a * 10 + (c.toNat - 48)) else none
      | none => none)
    (some 0)

def strToNum (s : String) : Option Int :=
  match s.toList with
  | [] => some 0
  | '-' :: rest =>
      if rest.isEmpty then none else (decNatAcc rest).map (fun n => -(n : Int))
  | '+' :: rest =>
      if rest.isEmpty then none else (decNatAcc rest).map (fun n => (n : Int))
  | cs => (decNatAcc cs).map (fun n => (n : Int))

mutual

/-- JS string coercion `''+v` on the modelled domain; arrays join their
elements' coercions with commas, as `Array.prototype.toString` does. -/
def jsToString : JVal → String
  | .str s => s
  | .num n => toString n
  | .fn _ => "function"
  | .arr es => jsToStringList es
  | .undef => "undefined"

def jsToStringList : List JVal → String
  | [] => ""
  | [v] => jsToString v
  | v :: vs => jsToString v ++ "," ++ jsToStringList vs

end

/-- JS loose equality `==` on the modelled domain: same-constructor
primitives compare componentwise (functions by reference id), a number
and a string compare after numeric coercion of the string, and
`undefined` equals only `undefined`.  (Object-to-primitive coercions of
arrays and functions against primitives are outside the modelled domain
and yield `false`.) -/
def looseEq : JVal → JVal → Bool
  | .str a, .str b => a = b
  | .num a, .num b => a = b
  | .num a, .str b => strToNum b = some a
  | .str a, .num b => strToNum a = some b
  | .fn a, .fn b => a = b
  | .undef, .undef => true
  | _, _ => false

/-- Render-tree nodes: element nodes carry an identity, a class list and
children; text nodes carry an identity and their text.  The identity
field stands for DOM node identity. -/
inductive Dom where
  | elem (nid : Nat) (clss : List String) (children : List Dom)
  | txt (nid : Nat) (content : String)
deriving Repr

mutual

/-- Preorder (document-order) listing of a subtree, root included. -/
def preorder : Dom → List Dom
  | .elem i cs ch => .elem i cs ch :: preorderList ch
  | .txt i s => [.txt i s]

def preorderList : List Dom → List Dom
  | [] => []
  | d :: ds => preorder d ++ preorderList ds

end

/-- Strict descendants of a node in document order (what jQuery
`find` traverses). -/
def descendants : Dom → List Dom
  | .elem _ _ ch => preorderList ch
  | .txt _ _ => []

/-- jQuery `hasClass` on a node. -/
def hasCls (d : Dom) (c : String) : Bool :=
  match d with
  | .elem _ cs _ => cs.contains c
  | .txt _ _ => false

/-- The receptor lookup of `attach` (jrna.js lines 564-569):
`container.find('.'+cls)` collects matching strict descendants, and if
the container itself carries the class it is re-added; `add` keeps
document order, in which the container comes first. -/
def findAdd (cls : String) (container : Dom) : List Dom :=
  let below := (descendants container).filter (fun d => hasCls d cls)
  if hasCls container cls then container :: below else below

/-- String-keyed table lookup (JS object property read). -/
def alGet {α : Type} : List (String × α) → String → Option α
  | [], _ => none
  | (k, v) :: rest, key => if k = key then some v else alGet rest key

/-- String-keyed table update (JS object property write). -/
def alSet {α : Type} : List (String × α) → String → α → List (String × α)
  | [], key, v => [(key, v)]
  | (k, w) :: rest, key, v =>
      if k = key then (k, v) :: rest else (k, w) :: alSet rest key v

/-- Truthiness of a boolean-valued table entry (absent reads as
`undefined`, which is falsy). -/
def tset (m : List (String × Bool)) (k : String) : Bool :=
  (alGet m k).getD false

/-- `this.throw` (jrna.js line 86-88): every engine failure carries the
message plus the blueprint's declaration site. -/
def throwMsg (origin msg : String) : String :=
  msg ++ " - jRna@" ++ origin

/-- Whether an `Except` result is a success. -/
def exOk {α : Type} : Except String α → Bool
  | .ok _ => true
  | .error _ => false

/-- `checkElement` (jrna.js lines 493-510) on a jQuery collection,
modelled by its node list: empty fails as missing, more than one fails
as ambiguous, a singleton yields its node (`element.first()`).  The
null-argument and non-jQuery branches cannot arise for a node list and
the string-selector branch is resolved by the caller in this model. -/
def checkElement (origin action : String) (els : List Dom) : Except String Dom :=
  match els with
  | [] => .error (throwMsg origin ("Cannot " ++ action ++ " a missing element"))
  | [e] => .ok e
  | _ => .error (throwMsg origin ("Cannot " ++ action ++ " an ambiguous element"))

/-- A `_known` entry: `true` (exclusive lock) or a truthy shared tag
string (jrna.js stores `shared || true`). -/
inductive LockVal where
  | excl
  | tagged (t : String)
deriving Repr, DecidableEq

/-- The value `lockName` stores: `shared || true`, so an absent or empty
(falsy) tag stores the exclusive marker `true`. -/
def lockStore : Option String → LockVal
  | some t => if t = "" then .excl else .tagged t
  | none => .excl

/-- JS truthiness of a stored `_known` entry (`true` and nonempty
strings are truthy). -/
def lockTruthy : LockVal → Bool
  | .excl => true
  | .tagged t => t ≠ ""

/-- The strict comparison `this._known[name] !== shared`: the stored
`true` never equals an (optional string) tag, and a stored tag string
equals exactly the same supplied tag. -/
def lockSame : LockVal → Option String → Bool
  | .excl, _ => false
  | .tagged t, some t' => t = t'
  | .tagged _, none => false

/-- An entry of the `_setup` queue: the receptor id and an opaque tag
identifying the enqueued closure (closures' bodies are external to the
engine; running one is recorded as a trace event carrying this tag). -/
structure SetupEntry where
  receptor : String
  aid : Nat
deriving Repr

/-- A markup string together with the node forest the browser parses it
into (`div.innerHTML = raw` produces `parsed` as child nodes); the
parser itself is the host's, so the pair is the model's input.  A falsy
markup argument is exactly `raw = ""`. -/
structure Markup where
  raw : String
  parsed : List Dom
deriving Repr

/-- The builder state the jRna constructor closes over: `origin` (the
captured stack location), `_known`, `noArgs`/`allowArgs`/`assignArgs`,
`isMethod`, `_setup`, `_init` (each initializer modelled by the value
its factory returns), `_onAttach` (opaque callbacks as tags) and
`_html` (kept with its parse).  The `callbacks.onRemove` list, only
consumed by `remove()`, is not needed by any claim and is omitted. -/
structure Blueprint where
  origin : String
  known : List (String × LockVal)
  noArgs : List (String × Bool)
  allowArgs : List (String × Bool)
  assignArgs : List (String × Bool)
  isMethod : List (String × Bool)
  setup : List SetupEntry
  inits : List (String × JVal)
  onAttach : List Nat
  tmpl : Option Markup
deriving Repr

/-- The property names pre-seeded into `_known` at blueprint creation
(jrna.js line 104). -/
def reservedNames : List String :=
  ["appendTo", "container", "element", "id", "onAttach", "onRemove", "remove"]

/-- The fresh-constructor state (jrna.js lines 103-105, 172-177, 203,
425, 477): reserved names pre-locked exclusively, the same names copied
into `noArgs`, and only `id` allowed and assignable. -/
def jRnaNew (origin : String) : Blueprint :=
  { origin := origin
    known := reservedNames.map (fun n => (n, LockVal.excl))
    noArgs := reservedNames.map (fun n => (n, true))
    allowArgs := [("id", true)]
    assignArgs := [("id", true)]
    isMethod := []
    setup := []
    inits := []
    onAttach := []
    tmpl := none }

/-- `lockName` (jrna.js lines 106-111): fails when the name is already
present (and truthy) with a stored value strictly different from the
supplied tag; otherwise records `shared || true`. -/
def lockName (bp : Blueprint) (name : String) (shared : Option String) :
    Except String Blueprint :=
  match alGet bp.known name with
  | some v =>
      if lockTruthy v && !(lockSame v shared) then
        .error (throwMsg bp.origin ("Property name already in use: " ++ name))
      else
        .ok { bp with known := alSet bp.known name (lockStore shared) }
  | none => .ok { bp with known := alSet bp.known name (lockStore shared) }

/-- The option object `addArgument` takes. -/
structure ArgSpec where
  forbidden : Bool := false
  assign : Bool := false
deriving Repr

/-- `addArgument` (jrna.js lines 178-193): with `forbidden` set it
rejects currently-allowed names and otherwise blacklists the name; else
it rejects blacklisted names and otherwise records the name as allowed
with its `assign` flag. -/
def addArgument (bp : Blueprint) (name : String) (spec : ArgSpec) :
    Except String Blueprint :=
  if spec.forbidden then
    if tset bp.allowArgs name then
      .error (throwMsg bp.origin ("Forbidden argument name: " ++ name))
    else
      .ok { bp with noArgs := alSet bp.noArgs name true }
  else if tset bp.noArgs name then
    .error (throwMsg bp.origin ("Forbidden argument name: " ++ name))
  else
    .ok { bp with
            allowArgs := alSet bp.allowArgs name true
            assignArgs := alSet bp.assignArgs name spec.assign }

/-- `element` (jrna.js lines 394-402) with the name given explicitly
(the source defaults it to the receptor id): locks the name, forbids it
as an argument, and enqueues the setup closure that stores the resolved
node on the instance (the closure is represented by a fresh tag). -/
def element (bp : Blueprint) (id nm : String) : Except String Blueprint :=
  match lockName bp nm none with
  | .error e => .error e
  | .ok bp1 =>
      match addArgument bp1 nm { forbidden := true } with
      | .error e => .error e
      | .ok bp2 =>
          .ok { bp2 with setup := bp2.setup ++ [⟨id, bp2.setup.length⟩] }

/-- `parseHTML` (jrna.js lines 91-101): no parsed child fails as empty,
more than one fails as multiple tags, otherwise the single child node —
of whatever node type — is returned.  (In the source these two failure
paths call `this.throw` with `this` undefined, so the host raises a
TypeError instead of the intended message; either way the call aborts,
and the intended message is used here.) -/
def parseHTML (m : Markup) : Except String Dom :=
  match m.parsed with
  | [] => .error "Attempt to use empty HTML"
  | [n] => .ok n
  | _ => .error "Attempt to create multiple tag HTML"

/-- `html` (jrna.js lines 125-132): a falsy markup string skips
validation entirely and clears `_html` to `undefined`; a truthy one is
parsed (failing on zero or several roots) and wrapped in a singleton
collection, which `checkElement` then always accepts. -/
def html (bp : Blueprint) (m : Markup) : Except String Blueprint :=
  if m.raw = "" then .ok { bp with tmpl := none }
  else
    match parseHTML m with
    | .error e => .error e
    | .ok n =>
        match checkElement bp.origin "accept html() that is" [n] with
        | .error e => .error e
        | .ok _ => .ok { bp with tmpl := some m }

/-- The construction-time check of `stickyState` (jrna.js lines
451-452): a defined `initial` absent from the transition table (looked
up under its property-key string form, handlers being truthy function
values) is fatal; otherwise the machine starts in `initial`.  The
transition table maps a state's string form to the handler's id. -/
def stickyStateCheck (origin : String) (tbl : List (String × Nat))
    (initial : JVal) : Except String JVal :=
  match initial with
  | .undef => .ok .undef
  | v =>
      match alGet tbl (jsToString v) with
      | none => .error (throwMsg origin ("Illegal initial state " ++ jsToString v))
      | some _ => .ok v

/-- What one call of the machine closure returns: the current state (a
pure getter) or the call receiver (`this`, for chaining). -/
inductive SsmRet where
  | getter (v : JVal)
  | receiver
deriving Repr

/-- The outcome of one successful machine call: the state the closure's
`state` local holds afterwards, the handler invocations it performed —
each recorded as (handler id, old state, new state), the handler being
bound to the call receiver — and what it returned. -/
structure SsmOut where
  state : JVal
  fired : List (Nat × JVal × JVal)
  ret : SsmRet
deriving Repr

/-- One call of the closure `stickyState` installs (jrna.js lines
458-471): an `undefined` argument is a pure getter; an argument loosely
equal (`!=` is loose) to the current state is a no-op returning the
receiver; otherwise the handler under the argument's string form
(`action_hash[''+arg]`) must exist — else the call fails fatally,
leaving `state` untouched — and is invoked once with (old, new) before
`state` becomes the argument and the receiver is returned. -/
def ssmCall (origin nm : String) (tbl : List (String × Nat))
    (state arg : JVal) : Except String SsmOut :=
  match arg with
  | .undef => .ok ⟨state, [], .getter state⟩
  | a =>
      if looseEq a state then .ok ⟨state, [], .receiver⟩
      else
        match alGet tbl (jsToString a) with
        | none =>
            .error (throwMsg origin
              ("Illegal state switch for " ++ nm ++ ": " ++ jsToString state
                ++ "->" ++ jsToString a))
        | some h => .ok ⟨a, [(h, state, a)], .receiver⟩

/-- The normal form `curry` (jrna.js lines 209-235) produces: a named
method looked up on the instance at call time with leading arguments, a
function reference applied with leading arguments, or a function bound
with no leading arguments. -/
inductive Curried where
  | methodCall (nm : String) (preargs : List JVal)
  | fnCall (f : Nat) (preargs : List JVal)
  | bound (f : Nat)
deriving Repr

/-- `curry`: a non-array spec is wrapped in a singleton; the head must
be a method-name string or a function reference (leading arguments
being the tail), and any other head — or an empty array, whose
destructured head is `undefined` — is fatal. -/
def curry (origin : String) (spec : JVal) : Except String Curried :=
  let l := match spec with
    | .arr es => es
    | v => [v]
  match l with
  | .str nm :: preargs => .ok (.methodCall nm preargs)
  | .fn f :: preargs =>
      if preargs.isEmpty then .ok (.bound f) else .ok (.fnCall f preargs)
  | _ => .error (throwMsg origin "Unexpected callback argument")

/-- The callback-spec shapes `curry` accepts. -/
def goodCallbackShape : JVal → Bool
  | .fn _ => true
  | .str _ => true
  | .arr (.fn _ :: _) => true
  | .arr (.str _ :: _) => true
  | _ => false

/-- What invoking a curried callback performs: which function runs,
with which receiver (always the instance the callback was curried for)
and which argument list. -/
structure CallSpec where
  fnid : Nat
  recvr : Nat
  callArgs : List JVal
deriving Repr

/-- Invoking the closure `curry` returned with runtime arguments `rt`:
a method name is looked up on the instance's method table as it is at
call time (`item[todo]`, so a reassigned method is the one invoked;
a missing one makes the call blow up, modelled as `none`), and the
callback runs with the instance as receiver and the leading arguments
prepended. -/
def invokeCurried (item : Nat) (methods : String → Option Nat)
    (c : Curried) (rt : List JVal) : Option CallSpec :=
  match c with
  | .methodCall nm pre => (methods nm).map (fun f => ⟨f, item, pre ++ rt⟩)
  | .fnCall f pre => some ⟨f, item, pre ++ rt⟩
  | .bound f => some ⟨f, item, rt⟩

/-- Externally observable engine effects, in the order they happen:
a queued setup closure ran against its resolved node, an instance
method was invoked on an argument value, an `onAttach` callback ran. -/
inductive Ev where
  | setupRan (aid : Nat) (receptor : String)
  | methodCalled (nm : String) (v : JVal)
  | attachCbRan (cb : Nat)
deriving Repr

/-- The live object `attach` returns: the container node, the map of
resolved receptor nodes, and the properties written onto the instance
(installed by initializers and argument assignment; the `appendTo`,
`remove` and `onRemove` closures of the source carry no per-claim
state and are omitted). -/
structure Bound where
  container : Dom
  elementMap : List (String × Dom)
  props : List (String × JVal)
deriving Repr

/-- The receptor-resolution-plus-setup loop of `attach` (jrna.js lines
563-573): for each queued entry in declaration order, the prefixed
class is looked up via `findAdd`, checked to be a single node, the
setup closure runs (a trace event), and the element map records the
node.  A check failure aborts, keeping the events already emitted. -/
def runSetup (origin : String) : List SetupEntry → Dom →
    List (String × Dom) → List Ev → List Ev × Except String (List (String × Dom))
  | [], _, em, evs => (evs, .ok em)
  | e :: rest, c, em, evs =>
      match checkElement origin ("fulfill ." ++ ("jrna-" ++ e.receptor) ++ " with")
          (findAdd ("jrna-" ++ e.receptor) c) with
      | .error msg => (evs, .error msg)
      | .ok n =>
          runSetup origin rest c (alSet em e.receptor n)
            (evs ++ [Ev.setupRan e.aid e.receptor])

/-- The initializer loop of `attach` (jrna.js lines 576-581): each
`_init` entry is applied unless it is a non-method name also present
among the caller's argument keys (deferred to argument assignment). -/
def runInit (inits : List (String × JVal)) (isM : List (String × Bool))
    (argKeys : List String) (ps : List (String × JVal)) : List (String × JVal) :=
  match inits with
  | [] => ps
  | (nm, v) :: rest =>
      if !(tset isM nm) && argKeys.contains nm then runInit rest isM argKeys ps
      else runInit rest isM argKeys (alSet ps nm v)

/-- The argument loop of `attach` (jrna.js lines 582-593): an
un-allowed key is fatal, a non-assignable key is skipped, a method name
is invoked with the value (a trace event), and any other key is
assigned onto the instance. -/
def runArgs (origin : String) (allow assign isM : List (String × Bool)) :
    List (String × JVal) → List (String × JVal) → List Ev →
    List Ev × Except String (List (String × JVal))
  | [], ps, evs => (evs, .ok ps)
  | (key, v) :: rest, ps, evs =>
      if !(tset allow key) then
        (evs, .error (throwMsg origin ("unknown argument " ++ key)))
      else if !(tset assign key) then runArgs origin allow assign isM rest ps evs
      else if tset isM key then
        runArgs origin allow assign isM rest ps (evs ++ [Ev.methodCalled key v])
      else runArgs origin allow assign isM rest (alSet ps key v) evs

/-- `attach` (jrna.js lines 524-601): the container collection must be
a single node; the fresh instance gets its callback lists and closures;
then receptor resolution interleaved with setup actions, then
initializers, then the argument loop, then the `onAttach` callbacks —
returning the bound instance together with the trace of externally
observable effects (also kept when the call aborts). -/
def attach (bp : Blueprint) (containerSel : List Dom)
    (args : List (String × JVal)) : List Ev × Except String Bound :=
  match checkElement bp.origin "attach to" containerSel with
  | .error e => ([], .error e)
  | .ok c =>
      match runSetup bp.origin bp.setup c [] [] with
      | (evs, .error e) => (evs, .error e)
      | (evs, .ok em) =>
          match runArgs bp.origin bp.allowArgs bp.assignArgs bp.isMethod args
              (runInit bp.inits bp.isMethod (args.map Prod.fst) []) evs with
          | (evs2, .error e) => (evs2, .error e)
          | (evs2, .ok ps2) =>
              (evs2 ++ bp.onAttach.map Ev.attachCbRan, .ok ⟨c, em, ps2⟩)

/-- `spawn` (jrna.js lines 607-614): an unset `_html` is fatal with the
spawn-time message; otherwise the stored markup is re-parsed, wrapped,
checked (a singleton always passes) and attached to. -/
def spawn (bp : Blueprint) (args : List (String × JVal)) :
    List Ev × Except String Bound :=
  match bp.tmpl with
  | none => ([], .error (throwMsg bp.origin "Trying to spawn with an empty html()"))
  | some m =>
      match parseHTML m with
      | .error e => ([], .error e)
      | .ok n =>
          match checkElement bp.origin "spawn() while html() is" [n] with
          | .error e => ([], .error e)
          | .ok _ => attach bp [n] args

/-! Helper lemmas about the table and tree primitives. -/

theorem alGet_alSet_self {α : Type} (ps : List (String × α)) (k : String) (v : α) :
    alGet (alSet ps k v) k = some v := by
  induction ps with
  | nil => simp [alSet, alGet]
  | cons p rest ih =>
      obtain ⟨k', w⟩ := p
      by_cases h : k' = k
      · subst h; simp [alSet, alGet]
      · simp [alSet, alGet, h, ih]

theorem alGet_alSet_ne {α : Type} (ps : List (String × α)) (k k' : String) (v : α)
    (h : k' ≠ k) : alGet (alSet ps k' v) k = alGet ps k := by
  induction ps with
  | nil => simp [alSet, alGet, h]
  | cons p rest ih =>
      obtain ⟨k0, w⟩ := p
      by_cases h0 : k0 = k'
      · subst h0; simp [alSet, alGet, h]
      · simp [alSet, alGet, h0, ih]

theorem alGet_map_const {α : Type} (v : α) (l : List String) (n : String)
    (h : n ∈ l) : alGet (l.map (fun x => (x, v))) n = some v := by
  induction l with
  | nil => cases h
  | cons k rest ih =>
      rcases List.mem_cons.mp h with rfl | hrest
      · simp [alGet]
      · by_cases hk : k = n
        · subst hk; simp [alGet]
        · simp [alGet, hk, ih hrest]

theorem preorder_eq (d : Dom) : preorder d = d :: descendants d := by
  cases d <;> rfl

theorem findAdd_eq_filter (cls : String) (d : Dom) :
    findAdd cls d = (preorder d).filter (fun x => hasCls x cls) := by
  rw [preorder_eq]
  by_cases h : hasCls d cls <;> simp [findAdd, List.filter_cons, h]

theorem checkElement_ok_iff (o a : String) (els : List Dom) (n : Dom) :
    checkElement o a els = .ok n ↔ els = [n] := by
  match els with
  | [] => simp [checkElement]
  | [x] => simp [checkElement]
  | x :: y :: t => simp [checkElement]

/-! The sticky state machine claims. -/

/-- C3: a machine produced by `stickyState`, at current state `s` (a
declared-state key, i.e. a string): a no-argument call is a pure getter
returning `s` with no handler fired; a call with `s` itself fires no
handler, keeps the state and returns the receiver; a call with a
different declared state `t` fires exactly the handler the table maps
`t` to, once, with arguments (old, new) = (`s`, `t`) and the call
receiver bound, moves the state to `t` and returns the receiver. -/
theorem stickyState_transitions :
    (∀ o nm tbl s, ssmCall o nm tbl (.str s) .undef
        = .ok ⟨.str s, [], .getter (.str s)⟩) ∧
    (∀ o nm tbl s, ssmCall o nm tbl (.str s) (.str s)
        = .ok ⟨.str s, [], .receiver⟩) ∧
    (∀ o nm tbl s t h, t ≠ s → alGet tbl t = some h →
      ssmCall o nm tbl (.str s) (.str t)
        = .ok ⟨.str t, [(h, .str s, .str t)], .receiver⟩) := by
  refine ⟨fun o nm tbl s => rfl, fun o nm tbl s => ?_, fun o nm tbl s t h ht hget => ?_⟩
  · simp [ssmCall, looseEq]
  · simp [ssmCall, looseEq, ht, jsToString, hget]

/-- C3 witness: the transition parts at a concrete machine. -/
theorem stickyState_transitions_witness :
    ssmCall "w" "st" [("a", 0), ("b", 1)] (.str "a") (.str "a")
      = .ok ⟨.str "a", [], .receiver⟩ ∧
    ssmCall "w" "st" [("a", 0), ("b", 1)] (.str "a") (.str "b")
      = .ok ⟨.str "b", [(1, .str "a", .str "b")], .receiver⟩ :=
  ⟨stickyState_transitions.2.1 "w" "st" [("a", 0), ("b", 1)] "a",
   stickyState_transitions.2.2 "w" "st" [("a", 0), ("b", 1)] "a" "b" 1
     (by decide) rfl⟩

/-- C4: `stickyState` fails at construction when a defined initial
state is absent from the transition table; and a built machine called
with an undeclared target fails fatally with a message reporting the
old and the new state, firing nothing, while the state stays unchanged
— a subsequent no-argument call still returns the old state. -/
theorem stickyState_failures :
    (∀ o tbl s, s ≠ JVal.undef → alGet tbl (jsToString s) = none →
      stickyStateCheck o tbl s
        = .error (throwMsg o ("Illegal initial state " ++ jsToString s))) ∧
    (∀ o nm tbl s a, a ≠ JVal.undef → looseEq a s = false →
      alGet tbl (jsToString a) = none →
      ssmCall o nm tbl s a
          = .error (throwMsg o ("Illegal state switch for " ++ nm ++ ": "
              ++ jsToString s ++ "->" ++ jsToString a)) ∧
      ssmCall o nm tbl s .undef = .ok ⟨s, [], .getter s⟩) := by
  constructor
  · intro o tbl s hs hget
    cases s <;> simp_all [stickyStateCheck]
  · intro o nm tbl s a ha heq hget
    refine ⟨?_, rfl⟩
    cases a <;> simp_all [ssmCall]

/-- C4 witness: a bad initial state and an undeclared switch at a
concrete machine. -/
theorem stickyState_failures_witness :
    stickyStateCheck "w" [("a", 0)] (.str "b")
      = .error (throwMsg "w" ("Illegal initial state " ++ jsToString (.str "b"))) ∧
    ssmCall "w" "st" [("a", 0)] (.str "a") (.str "c")
      = .error (throwMsg "w" ("Illegal state switch for st: "
          ++ jsToString (JVal.str "a") ++ "->" ++ jsToString (JVal.str "c"))) ∧
    ssmCall "w" "st" [("a", 0)] (.str "a") .undef
      = .ok ⟨.str "a", [], .getter (.str "a")⟩ :=
  ⟨stickyState_failures.1 "w" [("a", 0)] (.str "b") (by simp) rfl,
   (stickyState_failures.2 "w" "st" [("a", 0)] (.str "a") (.str "c")
      (by simp) (by decide) rfl).1,
   (stickyState_failures.2 "w" "st" [("a", 0)] (.str "a") (.str "c")
      (by simp) (by decide) rfl).2⟩

/-- C8: the machine compares its argument to the current state with JS
loose equality and looks the handler up under the argument's string
form: any argument loosely equal to the current state — e.g. the number
1 against the string state `"1"` — is a handler-free no-op, and two
distinct values with the same string form (the number 1 and the string
`"1"`) address the same declared table state. -/
theorem stickyState_loose_matching :
    (∀ o nm tbl s a, a ≠ JVal.undef → looseEq a s = true →
      ssmCall o nm tbl s a = .ok ⟨s, [], .receiver⟩) ∧
    looseEq (.num 1) (.str "1") = true ∧
    jsToString (.num 1) = jsToString (.str "1") ∧
    (∀ o nm tbl h, alGet tbl "1" = some h →
      ssmCall o nm tbl (.str "2") (.num 1)
        = .ok ⟨.num 1, [(h, .str "2", .num 1)], .receiver⟩) := by
  refine ⟨fun o nm tbl s a ha heq => ?_, by decide, by decide,
    fun o nm tbl h hget => ?_⟩
  · cases a <;> simp_all [ssmCall]
  · have hne : looseEq (.num 1) (.str "2") = false := by decide
    have hstr : jsToString (.num 1) = "1" := by decide
    simp [ssmCall, hne, hstr, hget]

/-- C8 witness: the loose-equality no-op at a concrete machine whose
state is the string `"1"` and whose argument is the number 1, and the
coerced transition into table key `"1"`. -/
theorem stickyState_loose_matching_witness :
    ssmCall "w" "st" [("1", 5)] (.str "1") (.num 1)
      = .ok ⟨.str "1", [], .receiver⟩ ∧
    ssmCall "w" "st" [("1", 5)] (.str "2") (.num 1)
      = .ok ⟨.num 1, [(5, .str "2", .num 1)], .receiver⟩ :=
  ⟨stickyState_loose_matching.1 "w" "st" [("1", 5)] (.str "1") (.num 1)
      (by simp) (by decide),
   stickyState_loose_matching.2.2.2 "w" "st" [("1", 5)] 5 rfl⟩

/-! The property-registry claim. -/

theorem lockName_store (bp : Blueprint) (name : String) (shared : Option String)
    (h : alGet bp.known name = none) :
    lockName bp name shared
      = .ok { bp with known := alSet bp.known name (lockStore shared) } := by
  simp [lockName, h]

theorem lockName_match (bp : Blueprint) (name : String) (v : LockVal)
    (shared : Option String) (hget : alGet bp.known name = some v)
    (hsame : lockSame v shared = true) :
    lockName bp name shared
      = .ok { bp with known := alSet bp.known name (lockStore shared) } := by
  simp [lockName, hget, hsame]

theorem lockName_clash (bp : Blueprint) (name : String) (v : LockVal)
    (shared : Option String) (hget : alGet bp.known name = some v)
    (htr : lockTruthy v = true) (hsame : lockSame v shared = false) :
    lockName bp name shared
      = .error (throwMsg bp.origin ("Property name already in use: " ++ name)) := by
  simp [lockName, hget, htr, hsame]

/-- C5: locking the same fresh name twice succeeds exactly when both
declarations carry the identical (truthy) sharing tag; it fails when
the tags differ or either declaration carries none.  Locking any of the
reserved names pre-locked at blueprint creation fails whatever tag is
supplied. -/
theorem lockName_sharing :
    (∀ bp name t, alGet bp.known name = none → t ≠ "" →
      ∃ bp1 bp2, lockName bp name (some t) = .ok bp1 ∧
        lockName bp1 name (some t) = .ok bp2) ∧
    (∀ bp name t1 t2 bp1, alGet bp.known name = none →
      (t1 = none ∨ t2 = none ∨ t1 ≠ t2) →
      lockName bp name t1 = .ok bp1 →
      lockName bp1 name t2
        = .error (throwMsg bp1.origin ("Property name already in use: " ++ name))) ∧
    (∀ o name tag, name ∈ reservedNames →
      lockName (jRnaNew o) name tag
        = .error (throwMsg o ("Property name already in use: " ++ name))) := by
  refine ⟨fun bp name t hfresh ht => ?_, fun bp name t1 t2 bp1 hfresh hdiff h1 => ?_,
    fun o name tag hres => ?_⟩
  · have h1 := lockName_store bp name (some t) hfresh
    have hsame : lockSame (lockStore (some t)) (some t) = true := by
      simp [lockStore, ht, lockSame]
    have h2 := lockName_match
      { bp with known := alSet bp.known name (lockStore (some t)) } name
      (lockStore (some t)) (some t)
      (alGet_alSet_self bp.known name (lockStore (some t))) hsame
    exact ⟨_, _, h1, h2⟩
  · have hbp1 : bp1 = { bp with known := alSet bp.known name (lockStore t1) } := by
      have h2 := (lockName_store bp name t1 hfresh).symm.trans h1
      simpa using h2.symm
    subst hbp1
    have hstored : alGet (alSet bp.known name (lockStore t1)) name
        = some (lockStore t1) := alGet_alSet_self _ _ _
    refine lockName_clash _ name (lockStore t1) t2 hstored ?_ ?_
    · rcases t1 with _ | t
      · rfl
      · by_cases h0 : t = "" <;> simp [lockStore, h0, lockTruthy]
    · rcases t1 with _ | t
      · rfl
      · by_cases h0 : t = ""
        · simp [lockStore, h0, lockSame]
        · rcases t2 with _ | t'
          · simp [lockStore, h0, lockSame]
          · have hne : t ≠ t' := by
              rcases hdiff with h | h | h
              · cases h
              · cases h
              · intro hc; exact h (by rw [hc])
            simp [lockStore, h0, lockSame, hne]
  · have hres' : alGet (jRnaNew o).known name = some LockVal.excl := by
      simpa [jRnaNew] using alGet_map_const LockVal.excl reservedNames name hres
    exact lockName_clash (jRnaNew o) name LockVal.excl tag hres' rfl rfl

/-- C5 witness: a cooperative re-declaration under the tag
`stickyClick` succeeds, the same name re-declared untagged fails, and
the reserved name `container` cannot be locked under any tag. -/
theorem lockName_sharing_witness :
    (∃ bp1 bp2, lockName (jRnaNew "w") "flag" (some "stickyClick") = .ok bp1 ∧
      lockName bp1 "flag" (some "stickyClick") = .ok bp2) ∧
    (∀ bp1, lockName (jRnaNew "w") "flag" none = .ok bp1 →
      lockName bp1 "flag" none
        = .error (throwMsg bp1.origin ("Property name already in use: flag"))) ∧
    lockName (jRnaNew "w") "container" (some "anyTag")
      = .error (throwMsg "w" ("Property name already in use: container")) :=
  ⟨lockName_sharing.1 (jRnaNew "w") "flag" "stickyClick" rfl (by decide),
   fun bp1 h1 => lockName_sharing.2.1 (jRnaNew "w") "flag" none none bp1 rfl
     (Or.inl rfl) h1,
   lockName_sharing.2.2 "w" "container" (some "anyTag") (by decide)⟩

/-! The template claims. -/

/-- C6 counterexample: `html()` called with the empty markup string
succeeds (the template is merely cleared), and markup whose single
parsed root is a text node also succeeds — neither is rejected at the
time `html()` is called, against the claim that an empty template and a
non-element single root are construction-time failures. -/
theorem html_empty_accepted_cex :
    html (jRnaNew "o") ⟨"", []⟩ = .ok { jRnaNew "o" with tmpl := none } ∧
    html (jRnaNew "o") ⟨"hi", [Dom.txt 0 "hi"]⟩
      = .ok { jRnaNew "o" with tmpl := some ⟨"hi", [Dom.txt 0 "hi"]⟩ } :=
  ⟨rfl, rfl⟩

/-- C6 (amended): `html()` rejects, at call time, a nonempty markup
string whose parse has zero root nodes or several root nodes; a markup
string with exactly one root node is accepted whatever the node's type,
and the empty (falsy) markup string is accepted outright, clearing the
stored template. -/
theorem html_template_validation :
    (∀ bp m, m.raw = "" → html bp m = .ok { bp with tmpl := none }) ∧
    (∀ bp m, m.raw ≠ "" → m.parsed = [] →
      html bp m = .error "Attempt to use empty HTML") ∧
    (∀ bp m a b l, m.raw ≠ "" → m.parsed = a :: b :: l →
      html bp m = .error "Attempt to create multiple tag HTML") ∧
    (∀ bp m n, m.raw ≠ "" → m.parsed = [n] →
      html bp m = .ok { bp with tmpl := some m }) := by
  refine ⟨fun bp m h => ?_, fun bp m h hp => ?_, fun bp m a b l h hp => ?_,
    fun bp m n h hp => ?_⟩
  · simp [html, h]
  · simp [html, h, parseHTML, hp]
  · simp [html, h, parseHTML, hp]
  · simp [html, h, parseHTML, hp, checkElement]

/-- C6 witness: the amended theorem at concrete markup values. -/
theorem html_template_validation_witness :
    html (jRnaNew "w") ⟨"</x>", []⟩ = .error "Attempt to use empty HTML" ∧
    html (jRnaNew "w") ⟨"<p/><p/>", [Dom.elem 0 [] [], Dom.elem 1 [] []]⟩
      = .error "Attempt to create multiple tag HTML" ∧
    html (jRnaNew "w") ⟨"<p/>", [Dom.elem 0 [] []]⟩
      = .ok { jRnaNew "w" with tmpl := some ⟨"<p/>", [Dom.elem 0 [] []]⟩ } ∧
    html (jRnaNew "w") ⟨"", []⟩ = .ok { jRnaNew "w" with tmpl := none } :=
  ⟨html_template_validation.2.1 (jRnaNew "w") ⟨"</x>", []⟩ (by decide) rfl,
   html_template_validation.2.2.1 (jRnaNew "w") ⟨"<p/><p/>", _⟩
     (Dom.elem 0 [] []) (Dom.elem 1 [] []) [] (by decide) rfl,
   html_template_validation.2.2.2 (jRnaNew "w") ⟨"<p/>", _⟩
     (Dom.elem 0 [] []) (by decide) rfl,
   html_template_validation.1 (jRnaNew "w") ⟨"", []⟩ rfl⟩

/-- C9: calling `html()` with the empty (falsy) markup string never
fails — validation is skipped no matter what the string would parse to,
the stored template is cleared to `undefined` and the blueprint is
returned; the failure surfaces only when `spawn()` is called, which
throws "Trying to spawn with an empty html()". -/
theorem html_empty_defers_to_spawn :
    ∀ bp args parsed,
      html bp ⟨"", parsed⟩ = .ok { bp with tmpl := none } ∧
      spawn { bp with tmpl := none } args
        = ([], .error (throwMsg bp.origin "Trying to spawn with an empty html()")) := by
  intro bp args parsed
  exact ⟨by simp [html], rfl⟩

/-! The callback-resolver claim. -/

/-- C7: `curry` turns a function spec, a method-name spec, or an array
spec (head callback plus leading arguments) into a single invocable
that, called with runtime arguments, runs the underlying callback with
the given instance as receiver and the leading arguments prepended; a
method name is looked up on the instance's table as it stands at call
time, so a reassigned method is the one invoked; every other spec shape
fails fatally. -/
theorem curry_resolution :
    (∀ o f, curry o (.fn f) = .ok (.bound f)) ∧
    (∀ o nm, curry o (.str nm) = .ok (.methodCall nm [])) ∧
    (∀ o nm pre, curry o (.arr (.str nm :: pre)) = .ok (.methodCall nm pre)) ∧
    (∀ o f pre, pre ≠ [] → curry o (.arr (.fn f :: pre)) = .ok (.fnCall f pre)) ∧
    (∀ o f, curry o (.arr [.fn f]) = .ok (.bound f)) ∧
    (∀ item methods f rt, invokeCurried item methods (.bound f) rt
        = some ⟨f, item, rt⟩) ∧
    (∀ item methods f pre rt, invokeCurried item methods (.fnCall f pre) rt
        = some ⟨f, item, pre ++ rt⟩) ∧
    (∀ item methods nm pre rt, invokeCurried item methods (.methodCall nm pre) rt
        = (methods nm).map (fun f => ⟨f, item, pre ++ rt⟩)) ∧
    (∀ o spec, goodCallbackShape spec = false →
      curry o spec = .error (throwMsg o "Unexpected callback argument")) := by
  refine ⟨fun o f => rfl, fun o nm => rfl, fun o nm pre => rfl,
    fun o f pre hp => ?_, fun o f => rfl, fun item methods f rt => rfl,
    fun item methods f pre rt => rfl, fun item methods nm pre rt => rfl,
    fun o spec hbad => ?_⟩
  · simp [curry, hp]
  · cases spec with
    | str s => simp [goodCallbackShape] at hbad
    | num n => rfl
    | fn f => simp [goodCallbackShape] at hbad
    | undef => rfl
    | arr es =>
        cases es with
        | nil => rfl
        | cons hd tl => cases hd <;> simp_all [goodCallbackShape, curry]

/-- C7 witness: the resolver at concrete specs — a function spec, a
method-name spec looked up on two different method tables (the one
current at call time wins), an array spec with leading arguments, and a
malformed numeric spec. -/
theorem curry_resolution_witness :
    curry "w" (.fn 3) = .ok (.bound 3) ∧
    invokeCurried 9 (fun s => if s = "m" then some 4 else none)
        (.methodCall "m" []) [.num 2]
      = ((fun s => if s = "m" then some 4 else none) "m").map
          (fun f => ⟨f, 9, [] ++ [.num 2]⟩) ∧
    invokeCurried 9 (fun s => if s = "m" then some 8 else none)
        (.methodCall "m" []) [.num 2]
      = ((fun s => if s = "m" then some 8 else none) "m").map
          (fun f => ⟨f, 9, [] ++ [.num 2]⟩) ∧
    curry "w" (.arr [.fn 3, .num 1]) = .ok (.fnCall 3 [.num 1]) ∧
    invokeCurried 9 (fun _ => none) (.fnCall 3 [.num 1]) [.num 2]
      = some ⟨3, 9, [.num 1] ++ [.num 2]⟩ ∧
    curry "w" (.num 7) = .error (throwMsg "w" "Unexpected callback argument") :=
  ⟨curry_resolution.1 "w" 3,
   curry_resolution.2.2.2.2.2.2.2.1 9 (fun s => if s = "m" then some 4 else none)
     "m" [] [.num 2],
   curry_resolution.2.2.2.2.2.2.2.1 9 (fun s => if s = "m" then some 8 else none)
     "m" [] [.num 2],
   curry_resolution.2.2.2.1 "w" 3 [.num 1] (by simp),
   curry_resolution.2.2.2.2.2.2.1 9 (fun _ => none) 3 [.num 1] [.num 2],
   curry_resolution.2.2.2.2.2.2.2.2 "w" (.num 7) rfl⟩

/-! The argument-surface claim. -/

theorem addArgument_noArgs_error (bp : Blueprint) (name : String) (spec : ArgSpec)
    (hno : tset bp.noArgs name = true) (hf : spec.forbidden = false) :
    addArgument bp name spec
      = .error (throwMsg bp.origin ("Forbidden argument name: " ++ name)) := by
  simp [addArgument, hno, hf]

/-- C10: `addArgument(name)` fails with "Forbidden argument name" for
every name pre-seeded as reserved at blueprint creation (`appendTo`,
`container`, `element`, `id`, `onAttach`, `onRemove`, `remove`) and for
every name previously registered as forbidden, as `element()` does for
its property name; in particular `id`, though allowed and assignable by
default, cannot be re-declared; conversely `addArgument(name,
{forbidden: true})` fails whenever `name` is currently allowed. -/
theorem addArgument_forbidden_names :
    (∀ o name, name ∈ reservedNames →
      addArgument (jRnaNew o) name {}
        = .error (throwMsg o ("Forbidden argument name: " ++ name))) ∧
    (∀ bp name spec, tset bp.noArgs name = true → spec.forbidden = false →
      addArgument bp name spec
        = .error (throwMsg bp.origin ("Forbidden argument name: " ++ name))) ∧
    (∀ bp id nm bp1 spec, element bp id nm = .ok bp1 → spec.forbidden = false →
      addArgument bp1 nm spec
        = .error (throwMsg bp1.origin ("Forbidden argument name: " ++ nm))) ∧
    (∀ o, addArgument (jRnaNew o) "id" {}
        = .error (throwMsg o "Forbidden argument name: id")) ∧
    (∀ bp name spec, tset bp.allowArgs name = true → spec.forbidden = true →
      addArgument bp name spec
        = .error (throwMsg bp.origin ("Forbidden argument name: " ++ name))) := by
  have hseed : ∀ o name, name ∈ reservedNames →
      addArgument (jRnaNew o) name {}
        = .error (throwMsg o ("Forbidden argument name: " ++ name)) := by
    intro o name hres
    have hno : tset (jRnaNew o).noArgs name = true := by
      simp [tset, jRnaNew]
      rw [alGet_map_const true reservedNames name hres]
      rfl
    exact addArgument_noArgs_error (jRnaNew o) name {} hno rfl
  refine ⟨hseed, fun bp name spec hno hf => addArgument_noArgs_error bp name spec hno hf,
    fun bp id nm bp1 spec helem hf => ?_, fun o => hseed o "id" (by decide),
    fun bp name spec hall hf => ?_⟩
  · rcases h1 : lockName bp nm none with e | bpA
    · simp [element, h1] at helem
    · rcases h2 : addArgument bpA nm { forbidden := true } with e | bpB
      · simp [element, h1, h2] at helem
      · simp only [element, h1, h2] at helem
        have hbp1 : bp1 = { bpB with setup := bpB.setup ++ [⟨id, bpB.setup.length⟩] } := by
          simpa using helem.symm
        have hBA : bpB = { bpA with noArgs := alSet bpA.noArgs nm true } := by
          cases hA : tset bpA.allowArgs nm with
          | true =>
              have herr : addArgument bpA nm { forbidden := true }
                  = .error (throwMsg bpA.origin ("Forbidden argument name: " ++ nm)) := by
                simp [addArgument, hA]
              rw [herr] at h2
              exact absurd h2 (by simp)
          | false =>
              have hok : addArgument bpA nm { forbidden := true }
                  = .ok { bpA with noArgs := alSet bpA.noArgs nm true } := by
                simp [addArgument, hA]
              rw [hok] at h2
              simpa using h2.symm
        have hno : tset bp1.noArgs nm = true := by
          rw [hbp1, hBA]
          simp [tset, alGet_alSet_self]
        exact addArgument_noArgs_error bp1 nm spec hno hf
  · simp [addArgument, hall, hf]

/-- C10 witness: the failures at concrete names — the reserved `id`
(both directions) and a name `element()` registered as forbidden. -/
theorem addArgument_forbidden_names_witness :
    addArgument (jRnaNew "w") "remove" {}
      = .error (throwMsg "w" "Forbidden argument name: remove") ∧
    addArgument (jRnaNew "w") "id" {}
      = .error (throwMsg "w" "Forbidden argument name: id") ∧
    addArgument (jRnaNew "w") "id" { forbidden := true }
      = .error (throwMsg "w" "Forbidden argument name: id") ∧
    (∀ bp1, element (jRnaNew "w") "part" "part" = .ok bp1 →
      addArgument bp1 "part" {}
        = .error (throwMsg bp1.origin "Forbidden argument name: part")) :=
  ⟨addArgument_forbidden_names.1 "w" "remove" (by decide),
   addArgument_forbidden_names.2.2.2.1 "w",
   addArgument_forbidden_names.2.2.2.2 (jRnaNew "w") "id" { forbidden := true }
     rfl rfl,
   fun bp1 helem => addArgument_forbidden_names.2.2.1 (jRnaNew "w") "part" "part"
     bp1 {} helem rfl⟩

/-! Lemmas about the attach pipeline. -/

theorem runSetup_err_of_bad (o : String) (l : List SetupEntry) (c : Dom) :
    ∀ em evs, (∃ e ∈ l, (findAdd ("jrna-" ++ e.receptor) c).length ≠ 1) →
      exOk (runSetup o l c em evs).2 = false := by
  induction l with
  | nil => rintro em evs ⟨e, he, _⟩; cases he
  | cons e0 rest ih =>
      rintro em evs ⟨e, he, hbad⟩
      unfold runSetup
      split
      · simp [exOk]
      next n heq =>
        have hfind := (checkElement_ok_iff _ _ _ _).mp heq
        rcases List.mem_cons.mp he with rfl | hrest
        · rw [hfind] at hbad; simp at hbad
        · exact ih _ _ ⟨e, hrest, hbad⟩

theorem runSetup_ok_lookup (o : String) (l : List SetupEntry) (c : Dom) :
    ∀ em evs evs' em', runSetup o l c em evs = (evs', .ok em') →
      ∀ r, alGet em' r = alGet em r ∨
        ∃ n, findAdd ("jrna-" ++ r) c = [n] ∧ alGet em' r = some n := by
  induction l with
  | nil =>
      intro em evs evs' em' h r
      simp [runSetup] at h
      rw [← h.2]
      exact Or.inl rfl
  | cons e0 rest ih =>
      intro em evs evs' em' h r
      unfold runSetup at h
      split at h
      · exact absurd h (by simp)
      next n heq =>
        have hfind := (checkElement_ok_iff _ _ _ _).mp heq
        rcases ih _ _ _ _ h r with hsame | hfound
        · by_cases hr : e0.receptor = r
          · subst hr
            exact Or.inr ⟨n, hfind, by rw [hsame, alGet_alSet_self]⟩
          · exact Or.inl (by rw [hsame, alGet_alSet_ne _ _ _ _ hr])
        · exact Or.inr hfound

theorem runSetup_ok_resolves (o : String) (l : List SetupEntry) (c : Dom) :
    ∀ em evs evs' em', runSetup o l c em evs = (evs', .ok em') →
      ∀ e ∈ l, ∃ n, findAdd ("jrna-" ++ e.receptor) c = [n] ∧
        alGet em' e.receptor = some n := by
  induction l with
  | nil => intro em evs evs' em' h e he; cases he
  | cons e0 rest ih =>
      intro em evs evs' em' h e he
      unfold runSetup at h
      split at h
      · exact absurd h (by simp)
      next n heq =>
        have hfind := (checkElement_ok_iff _ _ _ _).mp heq
        rcases List.mem_cons.mp he with rfl | hrest
        · refine ⟨n, hfind, ?_⟩
          rcases runSetup_ok_lookup o rest c _ _ _ _ h e.receptor with hsame | hfound
          · rw [hsame, alGet_alSet_self]
          · rcases hfound with ⟨m, hm, hget⟩
            rw [hfind] at hm
            have hmn : n = m := by simpa using hm
            rw [hget, hmn]
        · exact ih _ _ _ _ h e hrest

theorem runArgs_err_of_unallowed (o : String) (allow assign isM : List (String × Bool))
    (args : List (String × JVal)) :
    ∀ ps evs, (∃ p ∈ args, tset allow p.1 = false) →
      exOk (runArgs o allow assign isM args ps evs).2 = false := by
  induction args with
  | nil => rintro ps evs ⟨p, hp, _⟩; cases hp
  | cons a rest ih =>
      rintro ps evs ⟨p, hp, hbad⟩
      obtain ⟨key, v⟩ := a
      cases hk : tset allow key with
      | false => simp [runArgs, hk, exOk]
      | true =>
          rcases List.mem_cons.mp hp with rfl | hrest
          · rw [hk] at hbad; cases hbad
          · cases ha : tset assign key with
            | false => simpa [runArgs, hk, ha] using ih _ _ ⟨p, hrest, hbad⟩
            | true =>
                cases hm : tset isM key with
                | false => simpa [runArgs, hk, ha, hm] using ih _ _ ⟨p, hrest, hbad⟩
                | true => simpa [runArgs, hk, ha, hm] using ih _ _ ⟨p, hrest, hbad⟩

theorem runArgs_ok_of_allowed (o : String) (allow assign isM : List (String × Bool))
    (args : List (String × JVal)) :
    ∀ ps evs, (∀ p ∈ args, tset allow p.1 = true) →
      ∃ evs' ps', runArgs o allow assign isM args ps evs = (evs', .ok ps') := by
  induction args with
  | nil => intro ps evs _; exact ⟨evs, ps, rfl⟩
  | cons a rest ih =>
      intro ps evs hall
      obtain ⟨key, v⟩ := a
      have hk : tset allow key = true := hall (key, v) (List.mem_cons_self _ _)
      have hrest : ∀ p ∈ rest, tset allow p.1 = true :=
        fun p hp => hall p (List.mem_cons_of_mem _ hp)
      cases ha : tset assign key with
      | false => simpa [runArgs, hk, ha] using ih ps evs hrest
      | true =>
          cases hm : tset isM key with
          | false => simpa [runArgs, hk, ha, hm] using ih (alSet ps key v) evs hrest
          | true =>
              simpa [runArgs, hk, ha, hm] using
                ih ps (evs ++ [Ev.methodCalled key v]) hrest

theorem runArgs_skips_unassignable (o : String)
    (allow assign isM : List (String × Bool)) (k : String)
    (hk : tset assign k = false) (args : List (String × JVal)) :
    ∀ ps evs evs' ps', runArgs o allow assign isM args ps evs = (evs', .ok ps') →
      alGet ps' k = alGet ps k := by
  induction args with
  | nil =>
      intro ps evs evs' ps' h
      simp [runArgs] at h
      rw [h.2]
  | cons a rest ih =>
      intro ps evs evs' ps' h
      obtain ⟨key, v⟩ := a
      cases hallow : tset allow key with
      | false =>
          rw [show runArgs o allow assign isM ((key, v) :: rest) ps evs
              = (evs, .error (throwMsg o ("unknown argument " ++ key))) by
            simp [runArgs, hallow]] at h
          exact absurd h (by simp)
      | true =>
          cases ha : tset assign key with
          | false =>
              rw [show runArgs o allow assign isM ((key, v) :: rest) ps evs
                  = runArgs o allow assign isM rest ps evs by
                simp [runArgs, hallow, ha]] at h
              exact ih _ _ _ _ h
          | true =>
              cases hm : tset isM key with
              | true =>
                  rw [show runArgs o allow assign isM ((key, v) :: rest) ps evs
                      = runArgs o allow assign isM rest ps
                          (evs ++ [Ev.methodCalled key v]) by
                    simp [runArgs, hallow, ha, hm]] at h
                  exact ih _ _ _ _ h
              | false =>
                  rw [show runArgs o allow assign isM ((key, v) :: rest) ps evs
                      = runArgs o allow assign isM rest (alSet ps key v) evs by
                    simp [runArgs, hallow, ha, hm]] at h
                  have hne : key ≠ k := by
                    intro hc; rw [hc, hk] at ha; cases ha
                  rw [ih _ _ _ _ h, alGet_alSet_ne _ _ _ _ hne]

/-! The binder claims. -/

/-- C1 counterexample: a blueprint with one setup action, attached to a
container holding its receptor with an argument object carrying the
undeclared key `zzz`: the attach call does fail, but only after the
setup action has run — its side effect (the `setupRan` trace event,
i.e. the installed property/handler) is observable, against the claim
that the failure precedes any observable setup side effect. -/
theorem attach_unknown_arg_after_setup_cex :
    attach { jRnaNew "o" with setup := [⟨"r", 0⟩] }
        [Dom.elem 0 [] [Dom.elem 1 ["jrna-r"] []]] [("zzz", JVal.num 1)]
      = ([Ev.setupRan 0 "r"], .error "unknown argument zzz - jRna@o") ∧
    ([Ev.setupRan 0 "r"] : List Ev) ≠ [] :=
  ⟨rfl, by simp⟩

/-- C1 (amended): an argument key never declared allowed makes the
whole attach call fail — no instance is produced — but the failure is
raised only in the argument loop, after the setup actions have run, so
their side effects remain observable from outside; an argument object
whose keys are all declared allowed is accepted whenever the same
attach succeeds without arguments, and a declared-but-not-assignable
key has no assignment effect on the instance (its property is exactly
what the initializer step left). -/
theorem attach_arg_validation :
    (∀ bp sel args, (∃ p ∈ args, tset bp.allowArgs p.1 = false) →
      exOk (attach bp sel args).2 = false) ∧
    (∀ bp sel args, exOk (attach bp sel []).2 = true →
      (∀ p ∈ args, tset bp.allowArgs p.1 = true) →
      exOk (attach bp sel args).2 = true) ∧
    (∀ bp sel args k evs b, tset bp.assignArgs k = false →
      attach bp sel args = (evs, .ok b) →
      alGet b.props k
        = alGet (runInit bp.inits bp.isMethod (args.map Prod.fst) []) k) := by
  refine ⟨fun bp sel args hex => ?_, fun bp sel args h0 hall => ?_,
    fun bp sel args k evs b hk h => ?_⟩
  · unfold attach
    rcases hchk : checkElement bp.origin "attach to" sel with e | c
    · simp [exOk]
    · simp only [hchk]
      rcases hrs : runSetup bp.origin bp.setup c [] [] with ⟨evs0, res⟩
      rcases res with e | em
      · simp [exOk]
      · simp only []
        have hra := runArgs_err_of_unallowed bp.origin bp.allowArgs bp.assignArgs
          bp.isMethod args (runInit bp.inits bp.isMethod (args.map Prod.fst) []) evs0 hex
        rcases hrq : runArgs bp.origin bp.allowArgs bp.assignArgs bp.isMethod args
            (runInit bp.inits bp.isMethod (args.map Prod.fst) []) evs0 with ⟨evs2, res2⟩
        rcases res2 with e2 | ps2
        · simp [exOk]
        · rw [hrq] at hra
          simp [exOk] at hra
  · unfold attach at h0 ⊢
    rcases hchk : checkElement bp.origin "attach to" sel with e | c
    · simp only [hchk] at h0; simp [exOk] at h0
    · simp only [hchk] at h0 ⊢
      rcases hrs : runSetup bp.origin bp.setup c [] [] with ⟨evs0, res⟩
      rcases res with e | em
      · simp only [hrs] at h0; simp [exOk] at h0
      · simp only [hrs] at h0 ⊢
        obtain ⟨evs', ps', heq⟩ := runArgs_ok_of_allowed bp.origin bp.allowArgs
          bp.assignArgs bp.isMethod args
          (runInit bp.inits bp.isMethod (args.map Prod.fst) []) evs0 hall
        simp only [heq]
        simp [exOk]
  · unfold attach at h
    rcases hchk : checkElement bp.origin "attach to" sel with e | c
    · simp only [hchk] at h; exact absurd h (by simp)
    · simp only [hchk] at h
      rcases hrs : runSetup bp.origin bp.setup c [] [] with ⟨evs0, res⟩
      rcases res with e | em
      · simp only [hrs] at h; exact absurd h (by simp)
      · simp only [hrs] at h
        rcases hrq : runArgs bp.origin bp.allowArgs bp.assignArgs bp.isMethod args
            (runInit bp.inits bp.isMethod (args.map Prod.fst) []) evs0 with ⟨evs2, res2⟩
        rcases res2 with e2 | ps2
        · simp only [hrq] at h; exact absurd h (by simp)
        · simp only [hrq] at h
          have hb : b = Bound.mk c em ps2 := by
            have h2 := congrArg Prod.snd h
            simpa using h2.symm
          rw [hb]
          exact runArgs_skips_unassignable bp.origin bp.allowArgs bp.assignArgs
            bp.isMethod k hk args _ _ _ _ hrq

/-- C1 witness: the amended theorem at a blueprint allowing `id` and a
non-assignable `x` — a stray key fails the call, an all-allowed
argument object is accepted, and the accepted `x` is never assigned. -/
theorem attach_arg_validation_witness :
    exOk (attach { jRnaNew "w" with allowArgs := [("id", true), ("x", true)] }
        [Dom.elem 0 [] []] [("zzz", JVal.num 1)]).2 = false ∧
    exOk (attach { jRnaNew "w" with allowArgs := [("id", true), ("x", true)] }
        [Dom.elem 0 [] []] [("x", JVal.num 9)]).2 = true ∧
    alGet (Bound.mk (Dom.elem 0 [] []) [] []).props "x"
      = alGet (runInit [] [] (([("x", JVal.num 9)]).map Prod.fst) []) "x" :=
  ⟨attach_arg_validation.1 { jRnaNew "w" with allowArgs := [("id", true), ("x", true)] }
      [Dom.elem 0 [] []] [("zzz", JVal.num 1)]
      ⟨("zzz", JVal.num 1), by simp, rfl⟩,
   attach_arg_validation.2.1 { jRnaNew "w" with allowArgs := [("id", true), ("x", true)] }
      [Dom.elem 0 [] []] [("x", JVal.num 9)] rfl (by decide),
   attach_arg_validation.2.2 { jRnaNew "w" with allowArgs := [("id", true), ("x", true)] }
      [Dom.elem 0 [] []] [("x", JVal.num 9)] "x" [] (Bound.mk (Dom.elem 0 [] []) [] [])
      rfl rfl⟩

/-- C2 counterexample: a blueprint with two setup actions attached to a
container holding receptor `a` but not `b`: the attach call fails on
resolving `b`, but the instance has already been created and the first
setup action has already run — its side effect (the `setupRan` trace
event) is observable, against the fail-fast/all-or-nothing phrasing
that no instance state exists before a resolution failure. -/
theorem attach_receptor_failure_after_setup_cex :
    attach { jRnaNew "o" with setup := [⟨"a", 0⟩, ⟨"b", 1⟩] }
        [Dom.elem 0 [] [Dom.elem 1 ["jrna-a"] []]] []
      = ([Ev.setupRan 0 "a"],
          .error "Cannot fulfill .jrna-b with a missing element - jRna@o") ∧
    ([Ev.setupRan 0 "a"] : List Ev) ≠ [] :=
  ⟨rfl, by simp⟩

/-- C2 (amended): attach fails whenever a receptor referenced by a
setup action matches zero or several nodes in the container's subtree,
the container itself counting as a candidate; each receptor is resolved
immediately before its own setup action runs, so such a failure can
occur after the instance and earlier setup effects already exist; on
success the instance's element map binds each referenced receptor to
its unique matching node. -/
theorem attach_receptor_resolution :
    (∀ bp (c : Dom) args e, e ∈ bp.setup →
      ((preorder c).filter (fun d => hasCls d ("jrna-" ++ e.receptor))).length ≠ 1 →
      exOk (attach bp [c] args).2 = false) ∧
    (∀ bp (c : Dom) args evs b, attach bp [c] args = (evs, .ok b) →
      ∀ e ∈ bp.setup, ∃ n,
        (preorder c).filter (fun d => hasCls d ("jrna-" ++ e.receptor)) = [n] ∧
        alGet b.elementMap e.receptor = some n) := by
  constructor
  · intro bp c args e he hbad
    unfold attach
    have hchk : checkElement bp.origin "attach to" [c] = .ok c := rfl
    simp only [hchk]
    have hbad' : (findAdd ("jrna-" ++ e.receptor) c).length ≠ 1 := by
      rw [findAdd_eq_filter]; exact hbad
    have hrs := runSetup_err_of_bad bp.origin bp.setup c [] [] ⟨e, he, hbad'⟩
    rcases h : runSetup bp.origin bp.setup c [] [] with ⟨evs0, res⟩
    rw [h] at hrs
    rcases res with e0 | em
    · simp only [h]; simp [exOk]
    · simp [exOk] at hrs
  · intro bp c args evs b h e he
    unfold attach at h
    have hchk : checkElement bp.origin "attach to" [c] = .ok c := rfl
    simp only [hchk] at h
    rcases hrs : runSetup bp.origin bp.setup c [] [] with ⟨evs0, res⟩
    rcases res with e0 | em
    · simp only [hrs] at h; exact absurd h (by simp)
    · simp only [hrs] at h
      rcases hrq : runArgs bp.origin bp.allowArgs bp.assignArgs bp.isMethod args
          (runInit bp.inits bp.isMethod (args.map Prod.fst) []) evs0 with ⟨evs2, res2⟩
      rcases res2 with e2 | ps2
      · simp only [hrq] at h; exact absurd h (by simp)
      · simp only [hrq] at h
        have hb : b = Bound.mk c em ps2 := by
          have h2 := congrArg Prod.snd h
          simpa using h2.symm
        obtain ⟨n, hfind, hget⟩ :=
          runSetup_ok_resolves bp.origin bp.setup c [] [] evs0 em hrs e he
        refine ⟨n, ?_, ?_⟩
        · rw [← findAdd_eq_filter]; exact hfind
        · rw [hb]; exact hget

/-- C2 witness: the amended theorem at concrete containers — a missing
receptor fails the call, and a uniquely present receptor ends up bound
in the element map. -/
theorem attach_receptor_resolution_witness :
    exOk (attach { jRnaNew "w" with setup := [⟨"r", 0⟩] }
        [Dom.elem 0 [] []] []).2 = false ∧
    (∃ n, (preorder (Dom.elem 0 [] [Dom.elem 1 ["jrna-r"] []])).filter
          (fun d => hasCls d ("jrna-" ++ "r")) = [n] ∧
      alGet ([("r", Dom.elem 1 ["jrna-r"] [])]) "r" = some n) :=
  ⟨attach_receptor_resolution.1 { jRnaNew "w" with setup := [⟨"r", 0⟩] }
      (Dom.elem 0 [] []) [] ⟨"r", 0⟩ (by simp) (by decide),
   attach_receptor_resolution.2 { jRnaNew "w" with setup := [⟨"r", 0⟩] }
      (Dom.elem 0 [] [Dom.elem 1 ["jrna-r"] []]) [] [Ev.setupRan 0 "r"]
      (Bound.mk (Dom.elem 0 [] [Dom.elem 1 ["jrna-r"] []])
        [("r", Dom.elem 1 ["jrna-r"] [])] [])
      rfl ⟨"r", 0⟩ (by simp)⟩

end JRna
